import Mathlib

/-!
Shallow embedding of the `tracerr` rendering core (`print.go`): the row-window
calculation (`calcRows`), the source-line cache (`readLines`), the per-frame
source block (`sourceRows`), and the report composer (`sprint`) with its
entry points `Sprint`, `SprintSource` and `SprintSourceColor`.

Go machine integers are modelled as `Int` (no argument here comes near 2^63,
and the only division `(n-1)/2` happens with a non-negative dividend, where
Go's truncated division and Lean's `Int` division agree).  The process-wide
mutable globals (`DefaultLinesBefore`, ...) become an explicit `Config`
record read by every call.  Filesystem access becomes a pure map
`FS.read : String → Option String`, and the cache plus an access counter are
threaded as explicit state `St` (the counter is the spec's "read-counting
stub": it increments exactly when `os.ReadFile` would be called).
-/

namespace Tracerr

/-- Modelled from the spec: the stack-capturing collaborator's `Frame` type
(not under `src/`) is "an immutable value with `path`, `line` (positive
integer, 1-based), and a precomputed display string" — `display` stands for
the result of the external `Frame.String()`. -/
structure Frame where
  Path : String
  Line : Int
  display : String
deriving DecidableEq

/-- Modelled from the spec: an error value is either a plain error (only a
message) or a traced error exposing `Error() string` and a
`StackTrace() []Frame`; the Go type assertion `err.(Error)` becomes the case
split on this inductive.  A Go `nil` error is `Option.none` at the use site. -/
inductive GoError where
  | plain (msg : String)
  | traced (msg : String) (frames : List Frame)
deriving DecidableEq

/-- The five process-wide configuration globals of `print.go`. -/
structure Config where
  DefaultLinesAfter : Int
  DefaultLinesBefore : Int
  DefaultIgnoreFirstFrames : Int
  DefaultMaxFrames : Int
  DefaultIgnoreLastFrames : Int
deriving DecidableEq

/-- The initial values of the globals in `print.go`. -/
def defaultConfig : Config :=
  { DefaultLinesAfter := 2
    DefaultLinesBefore := 3
    DefaultIgnoreFirstFrames := 0
    DefaultMaxFrames := 0
    DefaultIgnoreLastFrames := 0 }

/-- Modelled from the spec: the external ANSI color helpers are "pure
string-decorator functions supplied externally"; an arbitrary quadruple of
pure functions. -/
structure Colors where
  red : String → String
  yellow : String → String
  black : String → String
  bold : String → String

/-- Identity decorators (what the helpers degenerate to with color disabled). -/
def idColors : Colors := ⟨id, id, id, id⟩

/-- The filesystem capability behind `os.ReadFile`: `none` models a failing
read (missing file, permissions, ...). -/
structure FS where
  read : String → Option String

/-- Explicit state for the package-level `cache` map guarded by the RWMutex,
plus `reads`, the number of filesystem accesses performed so far (the spec's
read-counting stub; not part of the Go state, pure instrumentation). -/
structure St where
  cache : String → Option (List String)
  reads : Nat

/-- The empty initial state: empty cache, no reads performed. -/
def st0 : St := ⟨fun _ => none, 0⟩

/-- `calcRows` of `print.go`: turn the variadic `nums` into
`(before, after, withSource)`.  The final clamping `if before < 0 ...` /
`if after < 0 ...` is kept verbatim. -/
def calcRows (cfg : Config) (nums : List Int) : Int × Int × Bool :=
  let (before, after, withSource) :=
    match nums with
    | b :: a :: _ => (b, a, true)
    | [n] =>
      if n > 0 then
        -- Extra line goes to "before" rather than "after".
        (n - (n - 1) / 2 - 1, (n - 1) / 2, true)
      else
        (0, 0, false)
    | [] => (cfg.DefaultLinesBefore, cfg.DefaultLinesAfter, true)
  (if before < 0 then 0 else before, if after < 0 then 0 else after, withSource)

/-- `readLines` of `print.go`: serve from the cache when present; otherwise
read the file (counting the access), failing with the `tracerr: file ... not
found` error without touching the cache, or splitting the content on the
newline character and storing it. -/
def readLines (fs : FS) (st : St) (path : String) :
    Except String (List String) × St :=
  match st.cache path with
  | some lines => (.ok lines, st)
  | none =>
    match fs.read path with
    | none =>
      (.error ("tracerr: file " ++ path ++ " not found"),
       { st with reads := st.reads + 1 })
    | some b =>
      let lines := b.splitOn "\n"
      (.ok lines,
       { cache := fun p => if p = path then some lines else st.cache p
         reads := st.reads + 1 })

/-- The body of the `for i := start; i <= end; i++` loop of `sourceRows`:
the row produced for index `i`, or `none` when the loop `continue`s because
`i` is outside `[0, len(lines))`. -/
def rowFor (colors : Colors) (lines : List String) (current : Int)
    (colorized : Bool) (i : Int) : Option String :=
  if i < 0 ∨ (lines.length : Int) ≤ i then
    none
  else if i = current then
    some (if colorized then
            colors.red (toString (i + 1) ++ "\t" ++ lines.getD i.toNat "")
          else
            toString (i + 1) ++ "\t" ++ lines.getD i.toNat "")
  else if colorized then
    some (colors.black (toString (i + 1)) ++ "\t" ++ lines.getD i.toNat "")
  else
    some (toString (i + 1) ++ "\t" ++ lines.getD i.toNat "")

/-- The window loop of `sourceRows`, with the iteration count made explicit
as structural fuel: `windowRowsAux n i` emits the rows for
`i, i+1, ..., i+n-1`. -/
def windowRowsAux (colors : Colors) (lines : List String) (current : Int)
    (colorized : Bool) : Nat → Int → List String
  | 0, _ => []
  | n + 1, i =>
    (match rowFor colors lines current colorized i with
     | none => []
     | some r => [r]) ++ windowRowsAux colors lines current colorized n (i + 1)

/-- The rows emitted by the loop `for i := start; i <= end; i++` of
`sourceRows` (empty when `e < s`, as in Go). -/
def windowRows (colors : Colors) (lines : List String) (current : Int)
    (colorized : Bool) (s e : Int) : List String :=
  windowRowsAux colors lines current colorized (e + 1 - s).toNat s

/-- `sourceRows` of `print.go`: append a frame's source block to `rows` —
the read-failure message, the too-few-lines message, or the window of
surrounding lines — always followed by one blank row. -/
def sourceRows (colors : Colors) (fs : FS) (rows : List String) (frame : Frame)
    (before after : Int) (colorized : Bool) (st : St) : List String × St :=
  match readLines fs st frame.Path with
  | (.error e, st') =>
    (rows ++ [if colorized then colors.yellow e else e, ""], st')
  | (.ok lines, st') =>
    if (lines.length : Int) < frame.Line then
      let message := "tracerr: too few lines, got " ++ toString lines.length ++
        ", want " ++ toString frame.Line
      (rows ++ [if colorized then colors.yellow message else message, ""], st')
    else
      (rows ++
        windowRows colors lines (frame.Line - 1) colorized
          (frame.Line - 1 - before) (frame.Line - 1 + after) ++ [""], st')

/-- The frame loop of `sprint`: `i` is the 1-based position counter over all
frames (including skipped ones), `appended` the count of rendered frames,
`total` the `len(frames)` of the whole trace.  The two `break`s of the Go
loop become the two early returns. -/
def sprintLoop (cfg : Config) (colors : Colors) (fs : FS) (total : Nat)
    (before after : Int) (withSource colorized : Bool) :
    Nat → Nat → List String → St → List Frame → List String × St
  | _, _, rows, st, [] => (rows, st)
  | i, appended, rows, st, frame :: rest =>
    let i := i + 1
    if (i : Int) ≤ cfg.DefaultIgnoreFirstFrames then
      sprintLoop cfg colors fs total before after withSource colorized
        i appended rows st rest
    else
      let rows := rows ++
        [if colorized then colors.bold frame.display else frame.display]
      let (rows, st) :=
        if withSource then
          sourceRows colors fs rows frame before after colorized st
        else
          (rows, st)
      let appended := appended + 1
      if 0 < cfg.DefaultMaxFrames ∧ cfg.DefaultMaxFrames ≤ (appended : Int) then
        (rows, st)
      else if 0 < cfg.DefaultIgnoreLastFrames ∧
          (total : Int) ≤ (i : Int) + cfg.DefaultIgnoreLastFrames then
        (rows, st)
      else
        sprintLoop cfg colors fs total before after withSource colorized
          i appended rows st rest

/-- `sprint` of `print.go`: empty string for `nil`, the plain message for an
error without a stack trace, otherwise message (+ blank separator when
`withSource`) followed by the frame loop, all joined with `"\n"`.  (The Go
`expectedRows` capacity hint has no observable effect and is dropped.) -/
def sprint (cfg : Config) (colors : Colors) (fs : FS) (st : St)
    (err : Option GoError) (nums : List Int) (colorized : Bool) :
    String × St :=
  match err with
  | none => ("", st)
  | some (.plain msg) => (msg, st)
  | some (.traced msg frames) =>
    let (before, after, withSource) := calcRows cfg nums
    let rows := if withSource then [msg, ""] else [msg]
    let (rows, st') := sprintLoop cfg colors fs frames.length before after
      withSource colorized 0 0 rows st frames
    (String.intercalate "\n" rows, st')

/-- `Sprint` of `print.go`: `sprint(err, []int` followed by `{0}, false)`. -/
def Sprint (cfg : Config) (colors : Colors) (fs : FS) (st : St)
    (err : Option GoError) : String × St :=
  sprint cfg colors fs st err [0] false

/-- `SprintSource` of `print.go`. -/
def SprintSource (cfg : Config) (colors : Colors) (fs : FS) (st : St)
    (err : Option GoError) (nums : List Int) : String × St :=
  sprint cfg colors fs st err nums false

/-- `SprintSourceColor` of `print.go`. -/
def SprintSourceColor (cfg : Config) (colors : Colors) (fs : FS) (st : St)
    (err : Option GoError) (nums : List Int) : String × St :=
  sprint cfg colors fs st err nums true

/-! Spec-side definitions, written from the specification's words, to be
compared with the code-side definitions above. -/

/-- The integers `a, a+1, ..., a+n-1`. -/
def intRangeAux : Nat → Int → List Int
  | 0, _ => []
  | n + 1, a => a :: intRangeAux n (a + 1)

/-- The integers from `a` to `b` inclusive (empty when `b < a`). -/
def intRange (a b : Int) : List Int := intRangeAux (b + 1 - a).toNat a

/-- Spec-side row for index `i` of the uncolored source window: the row
`"<i+1>\t<line text>"` when `i` lies in `[0, len(lines))`, nothing
otherwise. -/
def specWindowRow (lines : List String) (i : Int) : Option String :=
  if 0 ≤ i ∧ i < (lines.length : Int) then
    some (toString (i + 1) ++ "\t" ++ lines.getD i.toNat "")
  else
    none

/-- Spec-side uncolored source window for a frame at 1-based `line`: the rows
for the indexes from `line-1-before` to `line-1+after` inclusive that lie
inside the file, in increasing order, outside indexes silently skipped. -/
def specWindowRows (lines : List String) (line before after : Int) :
    List String :=
  (intRange (line - 1 - before) (line - 1 + after)).filterMap
    (specWindowRow lines)

/-- Spec-side frame selection: walking the frames with 1-based position
`pos` over a trace of `total` frames, skip (without counting) any frame with
`pos ≤ ignore-first`; otherwise render it, and stop right after it when
either max-frames is positive and reached by the rendered count, or
ignore-last is positive and `pos + ignore-last ≥ total`. -/
def specSelect (cfg : Config) (total : Nat) :
    Nat → Nat → List Frame → List Frame
  | _, _, [] => []
  | pos, rendered, f :: rest =>
    let pos := pos + 1
    if (pos : Int) ≤ cfg.DefaultIgnoreFirstFrames then
      specSelect cfg total pos rendered rest
    else
      let rendered := rendered + 1
      if (0 < cfg.DefaultMaxFrames ∧
            cfg.DefaultMaxFrames ≤ (rendered : Int)) ∨
         (0 < cfg.DefaultIgnoreLastFrames ∧
            (total : Int) ≤ (pos : Int) + cfg.DefaultIgnoreLastFrames) then
        [f]
      else
        f :: specSelect cfg total pos rendered rest

/-- Spec-side rendering of a list of already-selected frames: each frame
contributes its header (bold iff colorized) and, when `withSource`, its
`sourceRows` block, with the cache state threaded left to right. -/
def renderFrames (colors : Colors) (fs : FS) (before after : Int)
    (withSource colorized : Bool) : List Frame → St → List String × St
  | [], st => ([], st)
  | f :: rest, st =>
    let (block, st') :=
      if withSource then sourceRows colors fs [] f before after colorized st
      else ([], st)
    let (more, st'') :=
      renderFrames colors fs before after withSource colorized rest st'
    ((if colorized then colors.bold f.display else f.display) ::
      (block ++ more), st'')

/-! Shared concrete values used by the witness theorems. -/

/-- A filesystem on which every read fails. -/
def fs0 : FS := ⟨fun _ => none⟩

/-- A filesystem holding one two-line file `a.go`. -/
def fs2 : FS := ⟨fun p => if p = "a.go" then some "x\ny" else none⟩

/-- A state whose cache holds a three-line `a.go`. -/
def st3 : St := ⟨fun p => if p = "a.go" then some ["l1", "l2", "l3"] else none, 0⟩

/-- A state whose cache holds a ten-line `a.go`. -/
def st10 : St :=
  ⟨fun p => if p = "a.go" then
      some ["l1", "l2", "l3", "l4", "l5", "l6", "l7", "l8", "l9", "l10"]
    else none, 0⟩

/-! Theorems. -/

/-- C3: for a single argument `n`, `calcRows` yields `after = (n-1)/2`,
`before = n - after - 1` and `withSource = true` when `n > 0` (all integer
quantities here are non-negative, so integer division rounds down as in Go),
and `(0, 0, false)` when `n ≤ 0`. -/
theorem calcRows_single_arg (cfg : Config) (n : Int) :
    (0 < n →
      calcRows cfg [n] = (n - (n - 1) / 2 - 1, (n - 1) / 2, true)) ∧
    (n ≤ 0 → calcRows cfg [n] = (0, 0, false)) := by
  constructor
  · intro h
    unfold calcRows
    dsimp only
    rw [if_pos h]
    dsimp only
    rw [if_neg (by omega), if_neg (by omega)]
  · intro h
    unfold calcRows
    dsimp only
    rw [if_neg (show ¬n > 0 by omega)]
    rfl

/-- Witness for C3 at `n = 4` and `n = -1`. -/
theorem calcRows_single_arg_witness :
    calcRows defaultConfig [4] = (2, 1, true) ∧
    calcRows defaultConfig [-1] = (0, 0, false) :=
  ⟨(calcRows_single_arg defaultConfig 4).1 (by decide),
   (calcRows_single_arg defaultConfig (-1)).2 (by decide)⟩

/-- C8: with two or more arguments, `calcRows` returns the first two with
negatives clamped to zero, `withSource = true`, and ignores the rest. -/
theorem calcRows_two_args (cfg : Config) (b a : Int) (rest : List Int) :
    calcRows cfg (b :: a :: rest) = (max b 0, max a 0, true) := by
  unfold calcRows
  dsimp only
  have hb : (if b < 0 then (0 : Int) else b) = max b 0 := by split <;> omega
  have ha : (if a < 0 then (0 : Int) else a) = max a 0 := by split <;> omega
  rw [hb, ha]

/-- C7: `sprint` returns the empty string for a nil error and the plain
message for an error without a stack trace, in both cases leaving the
cache/read state untouched (no frame or file processing), for every
argument list and colorized flag. -/
theorem sprint_nil_or_plain (cfg : Config) (colors : Colors) (fs : FS)
    (st : St) (nums : List Int) (colorized : Bool) (msg : String) :
    sprint cfg colors fs st none nums colorized = ("", st) ∧
    sprint cfg colors fs st (some (.plain msg)) nums colorized = (msg, st) :=
  ⟨rfl, rfl⟩

/-- C6: on a cache miss, a failed read returns the `tracerr: file ... not
found` error, counts one filesystem access and leaves the cache unchanged,
so a repeated call accesses the filesystem again; a successful read stores
the content split on the newline character, and a second call returns the
identical sequence with no further filesystem access (state unchanged). -/
theorem readLines_cache_discipline (fs : FS) (st : St) (path : String)
    (hmiss : st.cache path = none) :
    (fs.read path = none →
      readLines fs st path =
        (.error ("tracerr: file " ++ path ++ " not found"),
         ⟨st.cache, st.reads + 1⟩) ∧
      readLines fs ⟨st.cache, st.reads + 1⟩ path =
        (.error ("tracerr: file " ++ path ++ " not found"),
         ⟨st.cache, st.reads + 2⟩)) ∧
    (∀ content, fs.read path = some content →
      readLines fs st path =
        (.ok (content.splitOn "\n"),
         ⟨fun p => if p = path then some (content.splitOn "\n") else st.cache p,
          st.reads + 1⟩) ∧
      readLines fs
          ⟨fun p => if p = path then some (content.splitOn "\n") else st.cache p,
           st.reads + 1⟩ path =
        (.ok (content.splitOn "\n"),
         ⟨fun p => if p = path then some (content.splitOn "\n") else st.cache p,
          st.reads + 1⟩)) := by
  constructor
  · intro h
    constructor
    · unfold readLines
      rw [hmiss, h]
    · unfold readLines
      rw [show (⟨st.cache, st.reads + 1⟩ : St).cache path = none from hmiss, h]
  · intro content h
    constructor
    · unfold readLines
      rw [hmiss, h]
    · unfold readLines
      simp

/-- Witness for C6: a missing file and a present two-line file. -/
theorem readLines_cache_discipline_witness :
    (readLines fs0 st0 "a.go" =
        (.error "tracerr: file a.go not found", ⟨st0.cache, 1⟩) ∧
      readLines fs0 ⟨st0.cache, 1⟩ "a.go" =
        (.error "tracerr: file a.go not found", ⟨st0.cache, 2⟩)) ∧
    (readLines fs2 st0 "a.go" =
        (.ok ("x\ny".splitOn "\n"),
         ⟨fun p => if p = "a.go" then some ("x\ny".splitOn "\n")
           else st0.cache p, 1⟩) ∧
      readLines fs2
          ⟨fun p => if p = "a.go" then some ("x\ny".splitOn "\n")
            else st0.cache p, 1⟩ "a.go" =
        (.ok ("x\ny".splitOn "\n"),
         ⟨fun p => if p = "a.go" then some ("x\ny".splitOn "\n")
           else st0.cache p, 1⟩)) :=
  ⟨(readLines_cache_discipline fs0 st0 "a.go" rfl).1 rfl,
   (readLines_cache_discipline fs2 st0 "a.go" rfl).2 "x\ny" rfl⟩

/-- Without colorization, the loop body produces exactly the spec-side row:
`"<i+1>\t<line>"` for in-range `i`, nothing otherwise. -/
theorem rowFor_uncolored (colors : Colors) (lines : List String)
    (current i : Int) :
    rowFor colors lines current false i = specWindowRow lines i := by
  unfold rowFor specWindowRow
  by_cases h : i < 0 ∨ (lines.length : Int) ≤ i
  · rw [if_pos h, if_neg (show ¬(0 ≤ i ∧ i < (lines.length : Int)) by omega)]
  · have h2 : 0 ≤ i ∧ i < (lines.length : Int) := by omega
    rw [if_neg h, if_pos h2]
    by_cases hc : i = current <;> simp [hc]

/-- The fueled window loop is the `filterMap` of the loop body over the
corresponding index range. -/
theorem windowRowsAux_filterMap (colors : Colors) (lines : List String)
    (current : Int) (colorized : Bool) :
    ∀ (n : Nat) (i : Int),
      windowRowsAux colors lines current colorized n i =
        (intRangeAux n i).filterMap (rowFor colors lines current colorized) := by
  intro n
  induction n with
  | zero => intro i; rfl
  | succ n ih =>
    intro i
    simp only [windowRowsAux, intRangeAux, List.filterMap_cons, ih]
    cases rowFor colors lines current colorized i <;> simp

/-- The uncolored code-side window equals the spec-side window. -/
theorem windowRows_eq_spec (colors : Colors) (lines : List String)
    (line before after : Int) :
    windowRows colors lines (line - 1) false
        (line - 1 - before) (line - 1 + after) =
      specWindowRows lines line before after := by
  unfold windowRows specWindowRows intRange
  rw [windowRowsAux_filterMap]
  rw [funext (rowFor_uncolored colors lines (line - 1))]

/-- C1: for a frame whose file is cached as `lines` with
`frame.Line ≤ len(lines)`, the uncolored `sourceRows` appends exactly the
rows `"<i+1>\t<line>"` for the indexes `i` from `frame.Line-1-before` to
`frame.Line-1+after` inclusive that lie in `[0, len(lines))`, in increasing
order (out-of-range indexes silently skipped), followed by exactly one
trailing blank row — also when the window contributes no row. -/
theorem sourceRows_window_spec (colors : Colors) (fs : FS)
    (rows : List String) (frame : Frame) (before after : Int) (st : St)
    (lines : List String) (hcache : st.cache frame.Path = some lines)
    (hline : frame.Line ≤ (lines.length : Int)) :
    sourceRows colors fs rows frame before after false st =
      (rows ++ specWindowRows lines frame.Line before after ++ [""], st) := by
  unfold sourceRows readLines
  rw [hcache]
  dsimp only
  rw [if_neg (by omega)]
  rw [windowRows_eq_spec]

/-- Witness for C1: a window truncated at the start of a three-line file
(`line 2`, `before = 3`, `after = 1` keeps indexes 0..2 only), and an empty
window (`before = after` negative is impossible here, so a frame against a
window shifted fully out of range shows the lone blank row). -/
theorem sourceRows_window_spec_witness :
    sourceRows idColors fs0 [] ⟨"a.go", 2, "d"⟩ 3 1 false st3 =
      (["1\tl1", "2\tl2", "3\tl3", ""], st3) :=
  sourceRows_window_spec idColors fs0 [] ⟨"a.go", 2, "d"⟩ 3 1 st3
    ["l1", "l2", "l3"] (by decide) (by decide)

/-- C5: for a frame whose file is cached as `lines` with strictly fewer
lines than `frame.Line`, `sourceRows` appends exactly the one message row
`"tracerr: too few lines, got <N>, want <line>"` (yellow-wrapped iff
colorized) and one blank row, with no source rows; and when the line count
equals `frame.Line` this branch is not taken — the window branch runs. -/
theorem sourceRows_too_few_lines (colors : Colors) (fs : FS)
    (rows : List String) (frame : Frame) (before after : Int)
    (colorized : Bool) (st : St) (lines : List String)
    (hcache : st.cache frame.Path = some lines) :
    ((lines.length : Int) < frame.Line →
      sourceRows colors fs rows frame before after colorized st =
        (rows ++
          [if colorized then
             colors.yellow ("tracerr: too few lines, got " ++
               toString lines.length ++ ", want " ++ toString frame.Line)
           else
             "tracerr: too few lines, got " ++ toString lines.length ++
               ", want " ++ toString frame.Line, ""], st)) ∧
    ((lines.length : Int) = frame.Line →
      sourceRows colors fs rows frame before after colorized st =
        (rows ++
          windowRows colors lines (frame.Line - 1) colorized
            (frame.Line - 1 - before) (frame.Line - 1 + after) ++ [""], st)) := by
  constructor
  · intro h
    unfold sourceRows readLines
    rw [hcache]
    dsimp only
    rw [if_pos h]
  · intro h
    unfold sourceRows readLines
    rw [hcache]
    dsimp only
    rw [if_neg (by omega)]

/-- Witness for C5: `line 50` against a ten-line file yields only the
message and the blank row; `line 10` against the same file takes the window
branch instead. -/
theorem sourceRows_too_few_lines_witness :
    sourceRows idColors fs0 [] ⟨"a.go", 50, "d"⟩ 3 2 false st10 =
      (["tracerr: too few lines, got 10, want 50", ""], st10) ∧
    sourceRows idColors fs0 [] ⟨"a.go", 10, "d"⟩ 0 0 false st10 =
      (["10\tl10", ""], st10) :=
  ⟨(sourceRows_too_few_lines idColors fs0 [] ⟨"a.go", 50, "d"⟩ 3 2 false st10
      ["l1", "l2", "l3", "l4", "l5", "l6", "l7", "l8", "l9", "l10"]
      (by decide)).1 (by decide),
   (sourceRows_too_few_lines idColors fs0 [] ⟨"a.go", 10, "d"⟩ 0 0 false st10
      ["l1", "l2", "l3", "l4", "l5", "l6", "l7", "l8", "l9", "l10"]
      (by decide)).2 (by decide)⟩

/-- Every branch of `sourceRows` only ever appends to `rows`, so the rows
it was handed distribute out. -/
theorem sourceRows_append (colors : Colors) (fs : FS) (rows : List String)
    (frame : Frame) (before after : Int) (colorized : Bool) (st : St) :
    sourceRows colors fs rows frame before after colorized st =
      (rows ++ (sourceRows colors fs [] frame before after colorized st).1,
       (sourceRows colors fs [] frame before after colorized st).2) := by
  unfold sourceRows
  cases hr : readLines fs st frame.Path with
  | mk r st' =>
    cases r with
    | error e => simp
    | ok lines =>
      dsimp only
      split <;> simp

/-- The frame loop equals spec-side selection followed by spec-side
rendering, for any starting position/appended counters. -/
theorem sprintLoop_run (cfg : Config) (colors : Colors) (fs : FS)
    (total : Nat) (before after : Int) (withSource colorized : Bool) :
    ∀ (frames : List Frame) (i appended : Nat) (rows : List String) (st : St),
      sprintLoop cfg colors fs total before after withSource colorized
          i appended rows st frames =
        (rows ++ (renderFrames colors fs before after withSource colorized
            (specSelect cfg total i appended frames) st).1,
         (renderFrames colors fs before after withSource colorized
            (specSelect cfg total i appended frames) st).2) := by
  intro frames
  induction frames with
  | nil =>
    intro i appended rows st
    simp [sprintLoop, specSelect, renderFrames]
  | cons f rest ih =>
    intro i appended rows st
    simp only [sprintLoop, specSelect]
    by_cases h1 : ((i + 1 : Nat) : Int) ≤ cfg.DefaultIgnoreFirstFrames
    · simp only [if_pos h1, ih]
    · simp only [if_neg h1]
      rw [sourceRows_append colors fs
        (rows ++ [if colorized then colors.bold f.display else f.display])]
      push_cast
      by_cases h2 : 0 < cfg.DefaultMaxFrames ∧
          cfg.DefaultMaxFrames ≤ (appended : Int) + 1
      · simp [h2, renderFrames]
        cases withSource <;> simp [apply_ite]
      · by_cases h3 : 0 < cfg.DefaultIgnoreLastFrames ∧
            (total : Int) ≤ (i : Int) + 1 + cfg.DefaultIgnoreLastFrames
        · simp [h2, h3, renderFrames]
          cases withSource <;> simp [apply_ite]
        · simp [h2, h3, ih, renderFrames]
          cases withSource <;> simp [apply_ite]

/-- With `withSource = false`, spec-side rendering is just the headers and
leaves the state untouched. -/
theorem renderFrames_noSource (colors : Colors) (fs : FS)
    (before after : Int) (colorized : Bool) :
    ∀ (sel : List Frame) (st : St),
      renderFrames colors fs before after false colorized sel st =
        (sel.map (fun f => if colorized then colors.bold f.display
          else f.display), st) := by
  intro sel
  induction sel with
  | nil => intro st; rfl
  | cons f rest ih => intro st; simp [renderFrames, ih]

/-- With `withSource = false`, the frame loop appends exactly the headers of
the spec-selected frames and never touches the cache or the filesystem. -/
theorem sprintLoop_noSource (cfg : Config) (colors : Colors) (fs : FS)
    (total : Nat) (before after : Int) (colorized : Bool)
    (frames : List Frame) (i appended : Nat) (rows : List String) (st : St) :
    sprintLoop cfg colors fs total before after false colorized
        i appended rows st frames =
      (rows ++ (specSelect cfg total i appended frames).map
        (fun f => if colorized then colors.bold f.display else f.display),
       st) := by
  rw [sprintLoop_run, renderFrames_noSource]

/-- C2: the frame loop of `sprint` skips exactly the frames whose 1-based
position is `≤ DefaultIgnoreFirstFrames` without counting them toward
`DefaultMaxFrames`, renders the rest in their original order, stops as soon
as `DefaultMaxFrames > 0` frames have been rendered, and stops after the
first rendered frame whose position `i` has
`i + DefaultIgnoreLastFrames ≥ total` when `DefaultIgnoreLastFrames > 0` —
i.e. the loop is spec-side selection (`specSelect`) followed by spec-side
per-frame rendering, for either value of `withSource`. -/
theorem sprintLoop_frame_selection (cfg : Config) (colors : Colors) (fs : FS)
    (total : Nat) (before after : Int) (withSource colorized : Bool)
    (frames : List Frame) (rows : List String) (st : St) :
    sprintLoop cfg colors fs total before after withSource colorized
        0 0 rows st frames =
      (rows ++ (renderFrames colors fs before after withSource colorized
          (specSelect cfg total 0 0 frames) st).1,
       (renderFrames colors fs before after withSource colorized
          (specSelect cfg total 0 0 frames) st).2) :=
  sprintLoop_run cfg colors fs total before after withSource colorized
    frames 0 0 rows st

/-- C4: `Sprint` of a traced error is the message followed by the selected
frames' display strings joined by single newlines — no blank line after the
message, no source rows, and no filesystem access, whatever the file
contents and the configured default window. -/
theorem Sprint_no_source (cfg : Config) (colors : Colors) (fs : FS) (st : St)
    (msg : String) (frames : List Frame) :
    Sprint cfg colors fs st (some (.traced msg frames)) =
      (String.intercalate "\n"
        (msg :: (specSelect cfg frames.length 0 0 frames).map Frame.display),
       st) := by
  unfold Sprint sprint
  rw [show calcRows cfg [0] = (0, 0, false) from rfl]
  dsimp only
  rw [sprintLoop_noSource]
  simp

/-- C10: for a traced error with an empty frame sequence, `Sprint` returns
exactly the message, and `SprintSource` with any arguments that keep
`withSource = true` returns the message followed by one trailing newline;
both leave the state untouched (no frame rendered, no file read). -/
theorem empty_trace_output (cfg : Config) (colors : Colors) (fs : FS)
    (st : St) (msg : String) (nums : List Int) (b a : Int)
    (hcalc : calcRows cfg nums = (b, a, true)) :
    Sprint cfg colors fs st (some (.traced msg [])) = (msg, st) ∧
    SprintSource cfg colors fs st (some (.traced msg [])) nums =
      (msg ++ "\n", st) := by
  constructor
  · unfold Sprint sprint
    rw [show calcRows cfg [0] = (0, 0, false) from rfl]
    rfl
  · unfold SprintSource sprint
    rw [hcalc]
    dsimp only [sprintLoop]
    simp [String.intercalate, String.intercalate.go]

/-- Witness for C10 with the default configuration and no arguments
(`withSource = true` with the default window). -/
theorem empty_trace_output_witness :
    Sprint defaultConfig idColors fs0 st0 (some (.traced "boom" [])) =
      ("boom", st0) ∧
    SprintSource defaultConfig idColors fs0 st0
        (some (.traced "boom" [])) [] = ("boom" ++ "\n", st0) :=
  empty_trace_output defaultConfig idColors fs0 st0 "boom" [] 3 2 (by decide)

end Tracerr
